import Mathlib

/-!
Shallow embedding of the KeyValueDB server (`src/server.py`): a networked
key-value store with named collections, CRUD operations, a small textual
query language (conditional read/delete and a two-collection join), and a
request-dispatch boundary.

Modelling conventions:
* Python runtime values occurring in this system (ints, floats, complex
  numbers, strings) are the inductive `PyVal`.  Floats are represented by
  the exact rational value of their literal; no claim depends on binary64
  rounding, and no arithmetic is performed on them, only comparisons.
* Python dictionaries are insertion-ordered association lists; key lookup
  uses Python `==` semantics (`pyEqb`), under which `4`, `4.0` and `4+0j`
  coincide and never equal a string.
* Operations that can raise return `Option`; an exception swallowed by a
  bare `except:` in the source is modelled by the corresponding `none` /
  no-op branch.
* Query strings are treated as lists of whitespace-delimited tokens, which
  is how the grammar is framed; each grammar atom consumes one whole token.
  Sub-token matching of the underlying parse library is outside the model.
-/

namespace KVDB

/-- A Python runtime value as used by this store: integer, float
(represented exactly by the rational value of its literal), complex
number (real and imaginary rational parts), or text. -/
inductive PyVal where
  | pyInt : Int → PyVal
  | pyStr : String → PyVal
  | pyFloat : Rat → PyVal
  | pyComplex : Rat → Rat → PyVal
deriving DecidableEq, Repr

namespace PyVal

/-- Canonical form deciding Python `==`: numeric values collapse to their
complex value `(re, im)`, strings stay strings. -/
def pyCanon : PyVal → (Rat × Rat) ⊕ String
  | pyInt n => Sum.inl ((n : Rat), 0)
  | pyFloat q => Sum.inl (q, 0)
  | pyComplex re im => Sum.inl (re, im)
  | pyStr s => Sum.inr s

/-- Python `==` on the values of this store: numeric kinds compare by
numeric value, strings compare as strings, numeric vs string is `False`.
`==` never raises. -/
def pyEqb (a b : PyVal) : Bool := decide (pyCanon a = pyCanon b)

/-- Python `<` as a fallible comparison: numeric `int`/`float` pairs and
string pairs compare; any pair involving a complex number, or mixing a
string with a number, raises `TypeError` (`none`). -/
def pyLtb : PyVal → PyVal → Option Bool
  | pyInt a, pyInt b => some (decide (a < b))
  | pyInt a, pyFloat b => some (decide ((a : Rat) < b))
  | pyFloat a, pyInt b => some (decide (a < (b : Rat)))
  | pyFloat a, pyFloat b => some (decide (a < b))
  | pyStr a, pyStr b => some (decide (a < b))
  | _, _ => none

/-- Python `<=`, with the same raising behaviour as `pyLtb`. -/
def pyLeb : PyVal → PyVal → Option Bool
  | pyInt a, pyInt b => some (decide (a ≤ b))
  | pyInt a, pyFloat b => some (decide ((a : Rat) ≤ b))
  | pyFloat a, pyInt b => some (decide (a ≤ (b : Rat)))
  | pyFloat a, pyFloat b => some (decide (a ≤ b))
  | pyStr a, pyStr b => some (decide (a ≤ b))
  | _, _ => none

/-- Substring test on character lists: `needle` occurs contiguously in
`haystack`. -/
def listInfix (needle haystack : List Char) : Bool :=
  haystack.tails.any (fun t => needle.isPrefixOf t)

/-- Python `operator.contains a b`, i.e. `b in a`: substring test when both
are strings; raises (`none`) when `a` is not a container or `b` is not a
string. -/
def pyContainsOp : PyVal → PyVal → Option Bool
  | pyStr a, pyStr b => some (listInfix b.toList a.toList)
  | _, _ => none

end PyVal

open PyVal

/-- The `operators` dispatch table of `Server._query`: maps an operator
token and two values to the outcome of the Python comparison, `none`
meaning the comparison raised. -/
def applyOperator (op : String) (a b : PyVal) : Option Bool :=
  match op with
  | ">" => (pyLtb b a)
  | "<" => (pyLtb a b)
  | "=" => some (pyEqb a b)
  | "<=" => (pyLeb a b)
  | ">=" => (pyLeb b a)
  | "contains" => pyContainsOp a b
  | _ => none

/-- A nonempty run of decimal digits read as a natural number; `none` on an
empty or non-digit input. -/
def digitsToNat (cs : List Char) : Option Nat :=
  if cs ≠ [] ∧ cs.all Char.isDigit then
    some (cs.foldl (fun a c => a * 10 + (c.toNat - 48)) 0)
  else none

/-- Python `int(s)` on a token: optional sign followed by a nonempty run of
digits; anything else raises `ValueError` (`none`). -/
def parseIntLit (s : String) : Option Int :=
  match s.toList with
  | '-' :: rest => (digitsToNat rest).map (fun n => -(n : Int))
  | '+' :: rest => (digitsToNat rest).map (fun n => (n : Int))
  | rest => (digitsToNat rest).map (fun n => (n : Int))

/-- The optional exponent suffix of a float literal: empty means exponent
`0`; otherwise `e`/`E`, an optional sign and a nonempty digit run. -/
def parseExpSuffix : List Char → Option Int
  | [] => some 0
  | e :: rest =>
    if e = 'e' ∨ e = 'E' then
      match rest with
      | '-' :: ds => (digitsToNat ds).map (fun n => -(n : Int))
      | '+' :: ds => (digitsToNat ds).map (fun n => (n : Int))
      | ds => (digitsToNat ds).map (fun n => (n : Int))
    else none

/-- The exact rational value of a decimal float literal
`ipart [. fpart] [exp]` (at least one digit among `ipart`/`fpart`). -/
def floatCoreVal (cs : List Char) : Option Rat :=
  let ip := cs.takeWhile Char.isDigit
  let r1 := cs.dropWhile Char.isDigit
  let withExp (mant : Rat) (tail : List Char) : Option Rat :=
    (parseExpSuffix tail).map (fun e =>
      if 0 ≤ e then mant * (10 : Rat) ^ e.toNat else mant / (10 : Rat) ^ (-e).toNat)
  match r1 with
  | '.' :: r2 =>
    let fp := r2.takeWhile Char.isDigit
    let r3 := r2.dropWhile Char.isDigit
    if ip = [] ∧ fp = [] then none
    else
      let ipn := (ip.foldl (fun a c => a * 10 + (c.toNat - 48)) 0 : Nat)
      let fpn := (fp.foldl (fun a c => a * 10 + (c.toNat - 48)) 0 : Nat)
      withExp ((ipn : Rat) + (fpn : Rat) / (10 : Rat) ^ fp.length) r3
  | _ =>
    if ip = [] then none
    else withExp ((ip.foldl (fun a c => a * 10 + (c.toNat - 48)) 0 : Nat) : Rat) r1

/-- Python `float(s)` on a token: optional sign and a finite decimal
literal.  The special spellings `inf`/`nan` are not representable in this
exact-value model and are outside it. -/
def parseFloatLit (s : String) : Option Rat :=
  match s.toList with
  | '-' :: rest => (floatCoreVal rest).map Neg.neg
  | '+' :: rest => floatCoreVal rest
  | rest => floatCoreVal rest

/-- A signed float at the front of a character list, returning its value
and the unconsumed remainder; a bare sign with no digits fails. -/
def signedFloatPrefix (cs : List Char) : Option (Rat × List Char) :=
  let core (l : List Char) : Option (Rat × List Char) :=
    let numPart := l.takeWhile (fun c => c.isDigit ∨ c = '.' ∨ c = 'e' ∨ c = 'E')
    let rest := l.dropWhile (fun c => c.isDigit ∨ c = '.' ∨ c = 'e' ∨ c = 'E')
    (floatCoreVal numPart).map (fun q => (q, rest))
  match cs with
  | '-' :: rest => (core rest).map (fun p => (-p.1, p.2))
  | '+' :: rest => core rest
  | rest => core rest

/-- Python `complex(s)` on a token, for the finite forms `a`, `aj`,
`a+bj`, `a-bj` with decimal components (a sign alone before `j` meaning
`±1`); anything else raises (`none`). -/
def parseComplexLit (s : String) : Option (Rat × Rat) :=
  match s.toList with
  | ['j'] => some (0, 1)
  | ['+', 'j'] => some (0, 1)
  | ['-', 'j'] => some (0, -1)
  | cs =>
    match signedFloatPrefix cs with
    | none => none
    | some (a, rest) =>
      match rest with
      | [] => some (a, 0)
      | ['j'] => some (0, a)
      | ['+', 'j'] => some (a, 1)
      | ['-', 'j'] => some (a, -1)
      | c :: tail =>
        if c = '+' ∨ c = '-' then
          match signedFloatPrefix (c :: tail) with
          | some (b, ['j']) => some (a, b)
          | _ => none
        else none

/-- The `types` table of `Server._parse_value_to_type`: casts the literal
token to the tagged type; `none` covers both an unknown tag (`KeyError`)
and a failed cast (`ValueError`). -/
def parseValueToType (value vt : String) : Option PyVal :=
  match vt with
  | "int" => (parseIntLit value).map PyVal.pyInt
  | "float" => (parseFloatLit value).map PyVal.pyFloat
  | "complex" => (parseComplexLit value).map (fun p => PyVal.pyComplex p.1 p.2)
  | "str" => some (PyVal.pyStr value)
  | _ => none

/-! ## Collections and the database

A Python `dict` is an insertion-ordered association list.  Lookup,
overwrite and removal use Python `==` (`pyEqb`) on keys; on overwrite the
originally stored key object and its position are kept, as in CPython. -/

/-- One collection: the insertion-ordered entries of a Python `dict`. -/
abbrev Dict := List (PyVal × PyVal)

/-- Python `d[k]` as an option: the value of the first (and in a real dict, only)
entry whose key is `==` to `k`. -/
def dictFind? (d : Dict) (k : PyVal) : Option PyVal :=
  match d with
  | [] => none
  | (k0, v0) :: rest => if pyEqb k0 k then some v0 else dictFind? rest k

/-- Python `k in d`. -/
def dictMem (d : Dict) (k : PyVal) : Bool := (dictFind? d k).isSome

/-- Python `d[k] = v`: overwrite in place (keeping the stored key and position)
when the key is present, else append a new entry. -/
def dictSet (d : Dict) (k v : PyVal) : Dict :=
  match d with
  | [] => [(k, v)]
  | (k0, v0) :: rest =>
    if pyEqb k0 k then (k0, v) :: rest else (k0, v0) :: dictSet rest k v

/-- Python `del d[k]`: remove the entry whose key is `==` to `k` (a no-op when
absent; callers that must raise on absence test `dictMem` first). -/
def dictDel (d : Dict) (k : PyVal) : Dict :=
  match d with
  | [] => []
  | (k0, v0) :: rest =>
    if pyEqb k0 k then rest else (k0, v0) :: dictDel rest k

/-- Real dicts never hold two entries with `==` keys; operations preserve
this and theorems that need it take it as a hypothesis. -/
def DictNodup (d : Dict) : Prop :=
  d.Pairwise (fun a b => pyEqb a.1 b.1 = false)

/-- Model of `Server.collections`: the database, an insertion-ordered mapping from
collection name to collection. -/
abbrev Store := List (String × Dict)

/-- Python `self.collections[name]` as an option. -/
def storeFind? (st : Store) (name : String) : Option Dict :=
  match st with
  | [] => none
  | (n0, d0) :: rest => if n0 = name then some d0 else storeFind? rest name

/-- Model of `Server._collection_exists`. -/
def collectionExists (st : Store) (name : String) : Bool :=
  (storeFind? st name).isSome

/-- Python `self.collections[name] = d`: overwrite in place or append. -/
def storeSet (st : Store) (name : String) (d : Dict) : Store :=
  match st with
  | [] => [(name, d)]
  | (n0, d0) :: rest =>
    if n0 = name then (n0, d) :: rest else (n0, d0) :: storeSet rest name d

/-- Python `del self.collections[name]` (no-op when absent; callers test
existence first). -/
def storeDrop (st : Store) (name : String) : Store :=
  match st with
  | [] => []
  | (n0, d0) :: rest =>
    if n0 = name then rest else (n0, d0) :: storeDrop rest name

/-! ## Responses -/

/-- The `collection_name` field of a `Response`: `None`, a single name, or
the two-name list produced by a join. -/
inductive RName where
  | absent
  | single (name : String)
  | pair (c1 c2 : String)
deriving DecidableEq, Repr

/-- The `data` field of a `Response`: `None`, a list of entries, or the
key-to-value-list mapping produced by a join. -/
inductive RData where
  | absent
  | entries (l : List (PyVal × PyVal))
  | joined (m : List (PyVal × List PyVal))
deriving DecidableEq, Repr

/-- Model of `Models/response.py`: the object the server sends back. -/
structure Response where
  success : Bool
  message : Option String
  collection_name : RName
  data : RData
deriving DecidableEq, Repr

/-- Model of `Server._send_error`. -/
def sendError (description : String) : Response :=
  ⟨false, some description, .absent, .absent⟩

/-! ## CRUD operations -/

/-- Model of `Server._create_collection`.  Python `str.isalpha` is false on the
empty string; non-ASCII letters do not occur in this model. -/
def createCollection (st : Store) (name : String) : Response × Store :=
  if name.length > 0 ∧ name.toList.all Char.isAlpha then
    if collectionExists st name then
      (sendError "Collection already exists.", st)
    else
      (⟨true, none, .single name, .absent⟩, storeSet st name [])
  else
    (sendError "Invalid collection name.", st)

/-- Model of `Server._delete_collection`. -/
def deleteCollection (st : Store) (name : String) : Response × Store :=
  if collectionExists st name then
    (⟨true, none, .absent, .absent⟩, storeDrop st name)
  else
    (sendError "Collection does not exist.", st)

/-- Model of `Server._read`: the response's single entry pairs the *given* key with
the stored value. -/
def readEntry (st : Store) (key : PyVal) (name : String) : Response × Store :=
  match storeFind? st name with
  | none => (sendError "Collection does not exist.", st)
  | some d =>
    match dictFind? d key with
    | some v => (⟨true, none, .single name, .entries [(key, v)]⟩, st)
    | none => (sendError "Entry does not exist.", st)

/-- Model of `Server._add`: assign, then read the entry back for the response.  In
the source the only raising step (an unhashable key) happens before any
mutation, so the failure branch leaves the store unchanged; with `PyVal`
keys the read-back after assignment cannot fail. -/
def addEntry (st : Store) (key value : PyVal) (name : String) : Response × Store :=
  match storeFind? st name with
  | none => (sendError "Collection does not exist.", st)
  | some d =>
    let d2 := dictSet d key value
    match dictFind? d2 key with
    | some v2 => (⟨true, none, .single name, .entries [(key, v2)]⟩, storeSet st name d2)
    | none => (sendError "Entry could not be added.", st)

/-- Model of `Server._delete`: `del` raises `KeyError` on a missing key, which the
handler converts to the failure response. -/
def deleteEntry (st : Store) (key : PyVal) (name : String) : Response × Store :=
  match storeFind? st name with
  | none => (sendError "Collection does not exist.", st)
  | some d =>
    if dictMem d key then
      (⟨true, none, .single name, .absent⟩, storeSet st name (dictDel d key))
    else
      (sendError "Entry could not be deleted.", st)

/-! ## The query language -/

/-- Splits a character list at whitespace, `acc` holding the characters of
the current token in reverse. -/
def splitWSAux : List Char → List Char → List String
  | [], acc => if acc = [] then [] else [String.mk acc.reverse]
  | c :: rest, acc =>
    if c.isWhitespace then
      if acc = [] then splitWSAux rest []
      else String.mk acc.reverse :: splitWSAux rest []
    else splitWSAux rest (c :: acc)

/-- Whitespace-delimited tokens of a query string. -/
def tokenize (s : String) : List String :=
  splitWSAux s.toList []

/-- Test for `Word(alphas)`: a nonempty all-alphabetic token. -/
def isAlphaTok (t : String) : Bool :=
  t.length > 0 && t.toList.all Char.isAlpha

/-- Test for `Keyword("read") | Keyword("delete")`. -/
def isActionTok (t : String) : Bool := t = "read" || t = "delete"

/-- Test for `Keyword("key") | Keyword("value")`. -/
def isElementTok (t : String) : Bool := t = "key" || t = "value"

/-- The six operator keywords, longest first as in the source. -/
def isOperatorTok (t : String) : Bool :=
  t = "<=" || t = ">=" || t = "<" || t = ">" || t = "=" || t = "contains"

/-- The structured result of `Server._parse_query_string`: a read/delete
sentence or a join sentence. -/
inductive ParsedQuery where
  | q (action element op : String) (value : PyVal) (collection1 : String)
  | join (collection1 collection2 : String)
deriving DecidableEq, Repr

/-- Model of `SYNTAX_JOIN`: `join <collection> with <collection>`; tokens after the
fourth are ignored because the source parses without `parseAll`. -/
def parseJoinTokens (ts : List String) : Option ParsedQuery :=
  match ts with
  | t0 :: c1 :: t2 :: c2 :: _ =>
    if t0 = "join" ∧ isAlphaTok c1 ∧ t2 = "with" ∧ isAlphaTok c2 then
      some (.join c1 c2)
    else none
  | _ => none

/-- The bare alternative of the `VALUE` nonterminal: one token, text-typed. -/
def parseBareValue : List String → Option (PyVal × List String)
  | [] => none
  | v :: rest => some (.pyStr v, rest)

/-- The `VALUE` nonterminal plus the type cast the source applies right
after parsing: the typed form `<type> ( <literal> )` is tried first; when
it matches structurally a failed cast fails the whole parse (the source
raises out of `_parse_query_string` without retrying the bare form), and
otherwise the bare form reads one token as text. -/
def parseValueSpec (ts : List String) : Option (PyVal × List String) :=
  match ts with
  | vt :: t1 :: v :: t3 :: rest =>
    if t1 = "(" ∧ t3 = ")" then
      (parseValueToType v vt).map (fun pv => (pv, rest))
    else parseBareValue ts
  | _ => parseBareValue ts

/-- Model of `SYNTAX_QUERY`:
`<action> <element> <operator> <value-spec> from <collection>`; tokens
after the collection are ignored. -/
def parseQueryForm (ts : List String) : Option ParsedQuery :=
  match ts with
  | a :: e :: op :: rest =>
    if isActionTok a ∧ isElementTok e ∧ isOperatorTok op then
      match parseValueSpec rest with
      | some (pv, rest2) =>
        match rest2 with
        | t4 :: c1 :: _ =>
          if t4 = "from" ∧ isAlphaTok c1 then some (.q a e op pv c1) else none
        | _ => none
      | none => none
    else none
  | _ => none

/-- Model of `Server._parse_query_string` on the token list:
`SYNTAX = SYNTAX_JOIN | SYNTAX_QUERY`, join tried first, and a `none`
standing for the `ParseException` (or cast error) the caller catches. -/
def parseQueryString (ts : List String) : Option ParsedQuery :=
  match parseJoinTokens ts with
  | some p => some p
  | none => parseQueryForm ts

/-! ## The query executor -/

/-- Python `del self.collections[name][key]` inside a query scan; when the key is
already gone the `KeyError` lands in the scan's blanket handler, so the
no-op models both outcomes. -/
def storeDelEntry (st : Store) (name : String) (k : PyVal) : Store :=
  match storeFind? st name with
  | some d => storeSet st name (dictDel d k)
  | none => st

/-- The loop body of `Server._execute_query_by_value` over one snapshot
entry: a raising comparison (`none`) is swallowed and the entry skipped;
on a match the entry is appended and, for a delete action, removed from
the live collection.  For a read action the source then calls
`None(key, name)`, whose `TypeError` is swallowed after the append. -/
def execByValueStep (deleteAction : Bool) (op : String) (operand : PyVal)
    (name : String) (acc : List (PyVal × PyVal) × Store) (e : PyVal × PyVal) :
    List (PyVal × PyVal) × Store :=
  match applyOperator op e.2 operand with
  | some true =>
    (acc.1 ++ [e], if deleteAction then storeDelEntry acc.2 name e.1 else acc.2)
  | _ => acc

/-- Model of `Server._execute_query_by_value`: scan a snapshot (`.copy()`) of the
collection, applying the operator as `operator(value, operand)`. -/
def execByValue (deleteAction : Bool) (op : String) (operand : PyVal)
    (name : String) (st : Store) : List (PyVal × PyVal) × Store :=
  let snapshot := (storeFind? st name).getD []
  snapshot.foldl (execByValueStep deleteAction op operand name) ([], st)

/-- Model of `Server._execute_query_by_key`.  Two facts of the source shape this
definition.  The `=` branch reads `self.data`, an attribute the server
never assigns, so the lookup raises `AttributeError` before the append
and the swallowed exception leaves the result empty.  Every other branch
calls `query_action(key)` with one argument, while `_delete_from_query`
requires two (and for a read the action is `None`), so the call raises
`TypeError` after the append: matches accumulate but no deletion ever
happens, and the store is returned unchanged for both actions. -/
def execByKey (_deleteAction : Bool) (op : String) (operand : PyVal)
    (name : String) (st : Store) : List (PyVal × PyVal) × Store :=
  if op = "=" then
    ([], st)
  else
    let snapshot := (storeFind? st name).getD []
    (snapshot.filter (fun e => applyOperator op e.1 operand = some true), st)

/-- The accumulation step of the join's `defaultdict(list)`: append `v` to
the list of the entry whose key is `==` to `k`, or start a new single-item
entry at the end. -/
def joinInsert (m : List (PyVal × List PyVal)) (k v : PyVal) :
    List (PyVal × List PyVal) :=
  match m with
  | [] => [(k, [v])]
  | (k0, vs) :: rest =>
    if pyEqb k0 k then (k0, vs ++ [v]) :: rest
    else (k0, vs) :: joinInsert rest k v

/-- The join loop of `Server._query`: chain the entries of collection1
then collection2 and group values by key. -/
def joinCollections (d1 d2 : Dict) : List (PyVal × List PyVal) :=
  (d1 ++ d2).foldl (fun m e => joinInsert m e.1 e.2) []

/-- Lookup in a join result, by Python key equality. -/
def joinFind? (m : List (PyVal × List PyVal)) (k : PyVal) : Option (List PyVal) :=
  match m with
  | [] => none
  | (k0, vs) :: rest => if pyEqb k0 k then some vs else joinFind? rest k

/-- The first collection a parsed query names, checked for existence
before the action branches. -/
def queryCollection1 : ParsedQuery → String
  | .q _ _ _ _ c1 => c1
  | .join c1 _ => c1

/-- Model of `Server._query` on a token list: parse, check the named collection,
then join or scan.  Any exception inside the `try` — a parse or cast
failure, or a `KeyError` from the action/element dispatch tables —
becomes the `"Invalid query syntax."` failure response. -/
def queryTokens (st : Store) (ts : List String) : Response × Store :=
  match parseQueryString ts with
  | none => (sendError "Invalid query syntax.", st)
  | some p =>
    if ¬ collectionExists st (queryCollection1 p) then
      (sendError (queryCollection1 p ++ " does not exist."), st)
    else
      match p with
      | .join c1 c2 =>
        if ¬ collectionExists st c2 then
          (sendError (c2 ++ " does not exist."), st)
        else
          (⟨true, none, .pair c1 c2,
            .joined (joinCollections ((storeFind? st c1).getD [])
                                     ((storeFind? st c2).getD []))⟩, st)
      | .q a e op operand c1 =>
        if ¬ (a = "read" ∨ a = "delete") then
          (sendError "Invalid query syntax.", st)
        else if e = "key" then
          let r := execByKey (a = "delete") op operand c1 st
          (⟨true, none, .single c1, .entries r.1⟩, r.2)
        else if e = "value" then
          let r := execByValue (a = "delete") op operand c1 st
          (⟨true, none, .single c1, .entries r.1⟩, r.2)
        else
          (sendError "Invalid query syntax.", st)

/-- Model of `Server._query` on the raw query string. -/
def queryString (st : Store) (s : String) : Response × Store :=
  queryTokens st (tokenize s)

/-! ## The request boundary -/

/-- Model of `Models/request.py` (reconstructed from its uses in `server.py` and
`client.py`, which build `Request(request_type, collection_name, key,
value, query)`): fields a given request kind does not use are ignored by
its handler. -/
structure Request where
  request_type : Int
  collection_name : String
  key : PyVal
  value : PyVal
  query : List String

/-- The dispatch table of `Server._listen`.  `request_types.get(t, 6)`
returns the *integer* `6` for a type outside the table, and calling it
raises an uncaught `TypeError`: `none` models that crash.  Only the exact
type `6` maps to the "Request type does not exist." response. -/
def handleRequest (st : Store) (r : Request) : Option (Response × Store) :=
  if r.request_type = 0 then some (readEntry st r.key r.collection_name)
  else if r.request_type = 1 then some (addEntry st r.key r.value r.collection_name)
  else if r.request_type = 2 then some (deleteEntry st r.key r.collection_name)
  else if r.request_type = 3 then some (queryTokens st r.query)
  else if r.request_type = 4 then some (createCollection st r.collection_name)
  else if r.request_type = 5 then some (deleteCollection st r.collection_name)
  else if r.request_type = 6 then some (sendError "Request type does not exist.", st)
  else none

/-- One request-boundary operation, for statements quantifying over all
six store operations. -/
inductive StoreOp where
  | create (name : String)
  | drop (name : String)
  | readE (key : PyVal) (name : String)
  | addE (key value : PyVal) (name : String)
  | delE (key : PyVal) (name : String)
  | runQuery (ts : List String)

/-- Run one request-boundary operation against the store. -/
def runOp : StoreOp → Store → Response × Store
  | .create name, st => createCollection st name
  | .drop name, st => deleteCollection st name
  | .readE k name, st => readEntry st k name
  | .addE k v name, st => addEntry st k v name
  | .delE k name, st => deleteEntry st k name
  | .runQuery ts, st => queryTokens st ts

/-- The grouped values a key collects from a list of entries. -/
def valuesOf (l : Dict) (k : PyVal) : List PyVal :=
  (l.filter (fun e => pyEqb e.1 k)).map Prod.snd

/-- Modelled from the spec, sentence shape 2 of the query grammar:
`join <collection> <with> <collection>` over whitespace-delimited tokens,
each collection an alphabetic identifier, possibly followed by further
tokens (whose rejection is exactly what the acceptance theorem tests). -/
def SpecJoinForm (ts : List String) : Prop :=
  ∃ c1 c2 rest, ts = ["join", c1, "with", c2] ++ rest ∧
    isAlphaTok c1 = true ∧ isAlphaTok c2 = true

/-- Modelled from the spec, sentence shape 1 of the query grammar:
`<action> <element> <operator> <value-spec> from <collection>`, where the
value-spec is a bare literal (text-typed) or `<type> ( <literal> )` with
a succeeding Value Coercion, the collection is an alphabetic identifier,
and further tokens may follow. -/
def SpecQueryForm (ts : List String) : Prop :=
  ∃ a e op vs c rest,
    ts = [a, e, op] ++ vs ++ ["from", c] ++ rest ∧
    (a = "read" ∨ a = "delete") ∧
    (e = "key" ∨ e = "value") ∧
    (op = "<" ∨ op = ">" ∨ op = "=" ∨ op = "<=" ∨ op = ">=" ∨ op = "contains") ∧
    ((∃ l, vs = [l]) ∨
     (∃ ty l, vs = [ty, "(", l, ")"] ∧ (parseValueToType l ty).isSome = true)) ∧
    isAlphaTok c = true

/-- Modelled from the spec: a token list one of whose prefixes is one of
the two accepted sentence shapes. -/
def SpecAccepted (ts : List String) : Prop := SpecJoinForm ts ∨ SpecQueryForm ts

/-! ## Basic lemmas about Python equality and the dictionary model -/

theorem pyEqb_iff {a b : PyVal} : pyEqb a b = true ↔ pyCanon a = pyCanon b := by
  simp [pyEqb]

theorem pyEqb_refl (a : PyVal) : pyEqb a a = true := by
  simp [pyEqb]

theorem pyEqb_congr_left {k0 kN : PyVal} (h : pyEqb k0 kN = true) (k : PyVal) :
    pyEqb k0 k = pyEqb kN k := by
  unfold pyEqb at *
  rw [pyEqb_iff.mp h]

theorem pyEqb_congr_right {k0 kN : PyVal} (h : pyEqb k0 kN = true) (k : PyVal) :
    pyEqb k k0 = pyEqb k kN := by
  unfold pyEqb at *
  rw [pyEqb_iff.mp h]

theorem pyEqb_symm (a b : PyVal) : pyEqb a b = pyEqb b a := by
  simp [pyEqb, eq_comm]

theorem dictFind?_eq_none_of_all (d : Dict) (k : PyVal)
    (h : ∀ e ∈ d, pyEqb e.1 k = false) : dictFind? d k = none := by
  induction d with
  | nil => rfl
  | cons e rest ih =>
    have he := h e (List.mem_cons_self e rest)
    simp only [dictFind?, he]
    exact ih (fun x hx => h x (List.mem_cons_of_mem e hx))

theorem dictFind?_dictSet_self (d : Dict) (k v : PyVal) :
    dictFind? (dictSet d k v) k = some v := by
  induction d with
  | nil => simp [dictSet, dictFind?, pyEqb_refl]
  | cons e rest ih =>
    by_cases h : pyEqb e.1 k = true
    · simp [dictSet, dictFind?, h]
    · simp only [Bool.not_eq_true] at h
      simp [dictSet, dictFind?, h, ih]

theorem dictFind?_dictDel_self (d : Dict) (k : PyVal) (hn : DictNodup d) :
    dictFind? (dictDel d k) k = none := by
  induction d with
  | nil => rfl
  | cons e rest ih =>
    rw [DictNodup, List.pairwise_cons] at hn
    obtain ⟨hhead, htail⟩ := hn
    by_cases h : pyEqb e.1 k = true
    · simp only [dictDel, h, if_true]
      refine dictFind?_eq_none_of_all rest k (fun x hx => ?_)
      have hex := hhead x hx
      by_contra hc
      simp only [Bool.not_eq_false] at hc
      have h2 : pyEqb e.1 x.1 = true := by
        rw [pyEqb_congr_right hc e.1]
        exact h
      rw [h2] at hex
      simp at hex
    · simp only [Bool.not_eq_true] at h
      simp [dictDel, dictFind?, h, ih htail]

theorem storeFind?_storeSet_self (st : Store) (name : String) (d : Dict) :
    storeFind? (storeSet st name d) name = some d := by
  induction st with
  | nil => simp [storeSet, storeFind?]
  | cons e rest ih =>
    by_cases h : e.1 = name
    · simp [storeSet, storeFind?, h]
    · simp [storeSet, storeFind?, h, ih]

/-! ## Lemmas about the scan executors -/

theorem execByValue_fold_matches (deleteAction : Bool) (op : String) (x : PyVal)
    (n : String) (l : Dict) :
    ∀ (acc : List (PyVal × PyVal)) (s : Store),
      (l.foldl (execByValueStep deleteAction op x n) (acc, s)).1
        = acc ++ l.filter (fun e => applyOperator op e.2 x = some true) := by
  induction l with
  | nil => intro acc s; simp
  | cons e rest ih =>
    intro acc s
    rw [List.foldl_cons, List.filter_cons]
    cases h : applyOperator op e.2 x with
    | none => simp [execByValueStep, h, ih]
    | some b =>
      cases b
      · simp [execByValueStep, h, ih]
      · simp [execByValueStep, h, ih]

theorem execByValue_matches (deleteAction : Bool) (op : String) (x : PyVal)
    (n : String) (st : Store) (d : Dict) (hd : storeFind? st n = some d) :
    (execByValue deleteAction op x n st).1
      = d.filter (fun e => applyOperator op e.2 x = some true) := by
  unfold execByValue
  rw [hd]
  simpa using execByValue_fold_matches deleteAction op x n d [] st

theorem execByKey_store (deleteAction : Bool) (op : String) (x : PyVal)
    (n : String) (st : Store) : (execByKey deleteAction op x n st).2 = st := by
  unfold execByKey
  by_cases h : op = "=" <;> simp [h]

/-! ## Lemmas about the join accumulation -/

theorem joinFind?_joinInsert (m : List (PyVal × List PyVal)) (kN v k : PyVal) :
    joinFind? (joinInsert m kN v) k =
      if pyEqb kN k then some ((joinFind? m k).getD [] ++ [v])
      else joinFind? m k := by
  induction m with
  | nil =>
    by_cases h : pyEqb kN k = true
    · simp [joinInsert, joinFind?, h]
    · simp only [Bool.not_eq_true] at h
      simp [joinInsert, joinFind?, h]
  | cons e rest ih =>
    by_cases h0 : pyEqb e.1 kN = true
    · have hk : pyEqb e.1 k = pyEqb kN k := pyEqb_congr_left h0 k
      by_cases h1 : pyEqb kN k = true
      · simp [joinInsert, joinFind?, h0, hk, h1]
      · simp only [Bool.not_eq_true] at h1
        simp [joinInsert, joinFind?, h0, hk, h1]
    · simp only [Bool.not_eq_true] at h0
      by_cases h1 : pyEqb kN k = true
      · have hk : pyEqb e.1 k = false := by
          by_contra hc
          simp only [Bool.not_eq_false] at hc
          rw [pyEqb_congr_right h1 e.1] at h0
          rw [hc] at h0
          simp at h0
        simp [joinInsert, joinFind?, h0, hk, h1, ih]
      · simp only [Bool.not_eq_true] at h1
        by_cases hk : pyEqb e.1 k = true
        · simp [joinInsert, joinFind?, h0, hk, h1]
        · simp only [Bool.not_eq_true] at hk
          simp [joinInsert, joinFind?, h0, hk, h1, ih]

theorem joinFind?_fold (k : PyVal) (l : Dict) :
    ∀ (m : List (PyVal × List PyVal)),
      joinFind? (l.foldl (fun m e => joinInsert m e.1 e.2) m) k =
        if joinFind? m k = none ∧ valuesOf l k = [] then none
        else some ((joinFind? m k).getD [] ++ valuesOf l k) := by
  induction l with
  | nil =>
    intro m
    cases h : joinFind? m k <;> simp [valuesOf, h]
  | cons e rest ih =>
    intro m
    rw [List.foldl_cons, ih (joinInsert m e.1 e.2), joinFind?_joinInsert]
    by_cases he : pyEqb e.1 k = true
    · have hv : valuesOf (e :: rest) k = e.2 :: valuesOf rest k := by
        simp [valuesOf, List.filter_cons, he]
      simp [he, hv]
    · simp only [Bool.not_eq_true] at he
      have hv : valuesOf (e :: rest) k = valuesOf rest k := by
        simp [valuesOf, List.filter_cons, he]
      simp [he, hv]

theorem joinFind?_joinCollections (d1 d2 : Dict) (k : PyVal) :
    joinFind? (joinCollections d1 d2) k =
      if valuesOf d1 k ++ valuesOf d2 k = [] then none
      else some (valuesOf d1 k ++ valuesOf d2 k) := by
  unfold joinCollections
  rw [joinFind?_fold k (d1 ++ d2) []]
  have hv : valuesOf (d1 ++ d2) k = valuesOf d1 k ++ valuesOf d2 k := by
    simp [valuesOf, List.filter_append]
  simp [joinFind?, hv]

theorem valuesOf_of_nodup (d : Dict) (k : PyVal) (hn : DictNodup d) :
    valuesOf d k = (dictFind? d k).toList := by
  induction d with
  | nil => rfl
  | cons e rest ih =>
    rw [DictNodup, List.pairwise_cons] at hn
    obtain ⟨hhead, htail⟩ := hn
    by_cases h : pyEqb e.1 k = true
    · have hrest : valuesOf rest k = [] := by
        unfold valuesOf
        have hfil : rest.filter (fun e => pyEqb e.1 k) = [] := by
          apply List.filter_eq_nil_iff.mpr
          intro x hx
          have hex := hhead x hx
          intro hc
          have h2 : pyEqb e.1 x.1 = true := by
            rw [pyEqb_congr_right hc e.1]
            exact h
          rw [h2] at hex
          simp at hex
        rw [hfil, List.map_nil]
      have hcons : valuesOf (e :: rest) k = e.2 :: valuesOf rest k := by
        simp [valuesOf, List.filter_cons, h]
      rw [hcons, hrest]
      simp [dictFind?, h]
    · simp only [Bool.not_eq_true] at h
      have hcons : valuesOf (e :: rest) k = valuesOf rest k := by
        simp [valuesOf, List.filter_cons, h]
      rw [hcons, ih htail]
      simp [dictFind?, h]

/-! ## The claims -/

/-- C1: the claim says a delete-by-key query with operator `<`, `>`, `<=`,
`>=` or `contains` appends every matching `(key, value)` to the result
*and removes it from the live collection*.  The source's
`_execute_query_by_key` calls `query_action(key)` with one argument while
`_delete_from_query` requires two, so the call raises `TypeError` after
the append and the blanket handler swallows it: by-key execution never
mutates the store, and on a concrete matching delete the matched entry
remains in the collection. -/
theorem C1_delete_by_key_never_deletes :
    (∀ (deleteAction : Bool) (op : String) (x : PyVal) (n : String) (st : Store),
      (execByKey deleteAction op x n st).2 = st) ∧
    queryTokens [("cars", [(pyInt 5, pyStr "a")])]
        ["delete", "key", ">", "int", "(", "0", ")", "from", "cars"]
      = (⟨true, none, .single "cars", .entries [(pyInt 5, pyStr "a")]⟩,
         [("cars", [(pyInt 5, pyStr "a")])]) :=
  ⟨execByKey_store, by decide⟩

/-- C2: the claim says the `=` key-query path looks the operand up in the
collection the sentence names, returning that single entry (and deleting
it when the action is delete).  The source's `=` branch reads
`self.data`, an attribute the server never assigns, so the lookup raises
before the append and the handler leaves the result empty: the path
always returns no entries and never touches any collection, even when
the operand is a key of the named collection. -/
theorem C2_key_eq_lookup_always_empty :
    (∀ (deleteAction : Bool) (x : PyVal) (n : String) (st : Store),
      execByKey deleteAction "=" x n st = ([], st)) ∧
    queryTokens [("cars", [(pyStr "k", pyStr "v")])]
        ["read", "key", "=", "k", "from", "cars"]
      = (⟨true, none, .single "cars", .entries []⟩,
         [("cars", [(pyStr "k", pyStr "v")])]) :=
  ⟨fun _ _ _ _ => rfl, by decide⟩

/-- C3 counterexample: against cars = {1000:"a", 2000:"b", 1234:"c"} the
query `"read key > 1234 from cars"` does *not* produce `[(2000, "b")]`:
the untyped operand is the text `"1234"`, every `int > str` comparison
raises and is treated as a non-match, so the result is empty. -/
theorem C3_counterexample :
    (queryString
        [("cars", [(pyInt 1000, pyStr "a"), (pyInt 2000, pyStr "b"),
                   (pyInt 1234, pyStr "c")])]
        "read key > 1234 from cars").1.data
      ≠ .entries [(pyInt 2000, pyStr "b")] := by decide

/-- C3 as amended: executing `"read key > 1234 from cars"` against cars =
{1000:"a", 2000:"b", 1234:"c"} succeeds with the empty result list, the
untyped operand defaulting to text and the raising `int`-versus-`str`
comparisons counting as non-matches; the store is unchanged. -/
theorem C3_query_result_empty :
    queryString
        [("cars", [(pyInt 1000, pyStr "a"), (pyInt 2000, pyStr "b"),
                   (pyInt 1234, pyStr "c")])]
        "read key > 1234 from cars"
      = (⟨true, none, .single "cars", .entries []⟩,
         [("cars", [(pyInt 1000, pyStr "a"), (pyInt 2000, pyStr "b"),
                    (pyInt 1234, pyStr "c")])]) := by decide

/-- C4: the claim says every unrecognized request type yields the failure
response "Request type does not exist.".  In the source the dispatch is
`request_types.get(request.request_type, 6)()`, whose default is the
*integer* `6`; only the exact type `6` maps to the error-response lambda,
and any other unrecognized type (here `7`) makes the dispatch call the
integer, an uncaught `TypeError` (`none`) that crashes the handling loop
instead of producing a response. -/
theorem C4_unknown_request_type_crashes :
    handleRequest [] ⟨6, "cars", pyInt 0, pyInt 0, []⟩
        = some (sendError "Request type does not exist.", []) ∧
    handleRequest [] ⟨7, "cars", pyInt 0, pyInt 0, []⟩ = none := by
  exact ⟨by decide, by decide⟩

/-- C5 counterexample: the token list of `"read key = a from cars junk"`
has a trailing token after a well-formed sentence, so the claim says
parsing must fail with `QuerySyntaxError`; the source parses without
`parseAll`, the trailing token is ignored, and against an existing empty
collection `cars` the query succeeds. -/
theorem C5_counterexample :
    parseQueryString ["read", "key", "=", "a", "from", "cars", "junk"]
        = some (.q "read" "key" "=" (pyStr "a") "cars") ∧
    (queryTokens [("cars", [])]
        ["read", "key", "=", "a", "from", "cars", "junk"]).1.success = true := by
  exact ⟨by decide, by decide⟩

/-- C7: on an existing collection, `put` then `get` of the same key
returns exactly that `(key, value)` pair (both from the add response and
from a subsequent read), and `remove` of an existing entry followed by
`get` fails with the "Entry does not exist." error. -/
theorem C7_put_get_remove (st : Store) (name : String) (k v : PyVal) (d : Dict)
    (hd : storeFind? st name = some d) :
    ((addEntry st k v name).1 = ⟨true, none, .single name, .entries [(k, v)]⟩ ∧
     (readEntry (addEntry st k v name).2 k name).1
        = ⟨true, none, .single name, .entries [(k, v)]⟩) ∧
    (DictNodup d → dictMem d k = true →
      (readEntry (deleteEntry st k name).2 k name).1
        = sendError "Entry does not exist.") := by
  refine ⟨⟨?_, ?_⟩, ?_⟩
  · unfold addEntry
    rw [hd]
    simp only [dictFind?_dictSet_self]
  · unfold addEntry
    rw [hd]
    simp only [dictFind?_dictSet_self]
    unfold readEntry
    rw [storeFind?_storeSet_self]
    simp only [dictFind?_dictSet_self]
  · intro hn hm
    unfold deleteEntry
    rw [hd]
    simp only [hm, if_true]
    unfold readEntry
    rw [storeFind?_storeSet_self]
    simp only [dictFind?_dictDel_self _ _ hn]

/-- C7 witness: the round trips at a concrete one-entry collection. -/
theorem C7_put_get_remove_witness :
    (readEntry (addEntry [("c", [(pyInt 1, pyStr "x")])] (pyInt 1) (pyStr "y") "c").2
        (pyInt 1) "c").1
      = ⟨true, none, .single "c", .entries [(pyInt 1, pyStr "y")]⟩ ∧
    (readEntry (deleteEntry [("c", [(pyInt 1, pyStr "x")])] (pyInt 1) "c").2
        (pyInt 1) "c").1
      = sendError "Entry does not exist." := by
  have h := C7_put_get_remove [("c", [(pyInt 1, pyStr "x")])] "c"
    (pyInt 1) (pyStr "y") [(pyInt 1, pyStr "x")] (by decide)
  exact ⟨h.1.2, h.2 (by simp [DictNodup]) (by decide)⟩

/-- C9: the query operation is total over token lists, and whenever
parsing fails — missing keyword, unknown operator, unknown or failed
type cast, unterminated type-cast parentheses all make
`parseQueryString` return `none` — the response is the failure with
message "Invalid query syntax." and the store is untouched; no exception
escapes. -/
theorem C9_malformed_query_yields_error (st : Store) (ts : List String)
    (h : parseQueryString ts = none) :
    queryTokens st ts = (sendError "Invalid query syntax.", st) := by
  unfold queryTokens
  rw [h]

/-- C9 witness: a failed `int` cast at a concrete query string. -/
theorem C9_malformed_query_yields_error_witness :
    parseQueryString (tokenize "read key = int ( abc ) from cars") = none ∧
    queryTokens [] (tokenize "read key = int ( abc ) from cars")
      = (sendError "Invalid query syntax.", []) :=
  ⟨by decide, C9_malformed_query_yields_error [] _ (by decide)⟩

/-- C8: in a scan-based query (read or delete, by key or by value, any
operator as long as the by-key `=` shortcut is not taken), an entry whose
comparison raises (`applyOperator … = none`) is treated as a non-match:
the result is exactly the filter of the collection's entries by a
successful `true` comparison, so raising entries are omitted while the
rest of the scan proceeds, and the query as a whole succeeds. -/
theorem C8_raising_comparisons_are_nonmatches (st : Store) (ts : List String)
    (a e op : String) (x : PyVal) (c1 : String) (d : Dict)
    (hp : parseQueryString ts = some (.q a e op x c1))
    (ha : a = "read" ∨ a = "delete")
    (he : e = "key" ∨ e = "value")
    (hko : e = "key" → op ≠ "=")
    (hd : storeFind? st c1 = some d) :
    (queryTokens st ts).1.success = true ∧
    (queryTokens st ts).1.data
      = .entries (d.filter (fun ent =>
          applyOperator op (if e = "key" then ent.1 else ent.2) x = some true)) ∧
    ∀ ent ∈ d, applyOperator op (if e = "key" then ent.1 else ent.2) x = none →
      ent ∉ d.filter (fun ent =>
          applyOperator op (if e = "key" then ent.1 else ent.2) x = some true) := by
  have hex : collectionExists st c1 = true := by
    simp [collectionExists, hd]
  have hnoraise : ∀ ent ∈ d,
      applyOperator op (if e = "key" then ent.1 else ent.2) x = none →
      ent ∉ d.filter (fun ent =>
          applyOperator op (if e = "key" then ent.1 else ent.2) x = some true) := by
    intro ent _ hnone hmem
    rw [List.mem_filter] at hmem
    have hc := hmem.2
    rw [hnone] at hc
    simp at hc
  rcases he with he | he
  · subst he
    have hop := hko rfl
    have hq : queryTokens st ts
        = (⟨true, none, .single c1,
            .entries (d.filter (fun ent => applyOperator op ent.1 x = some true))⟩, st) := by
      unfold queryTokens
      rw [hp]
      simp only [queryCollection1, hex, not_true, if_false, ha, not_false_iff]
      simp only [ha, not_true, if_false, if_true, execByKey, hop, if_neg, hd]
      simp [execByKey, hop, hd, ha]
    rw [hq]
    exact ⟨rfl, by simp, hnoraise⟩
  · subst he
    have hq : queryTokens st ts
        = (⟨true, none, .single c1,
            .entries ((execByValue (a = "delete") op x c1 st).1)⟩,
           (execByValue (a = "delete") op x c1 st).2) := by
      unfold queryTokens
      rw [hp]
      simp [queryCollection1, hex, ha]
    rw [hq]
    refine ⟨rfl, ?_, hnoraise⟩
    simp only [execByValue_matches _ _ _ _ _ _ hd]
    simp

/-- C8 witness: a by-value `<` scan over a collection holding a string
value (raising, skipped) and two int values (compared), with the query
succeeding. -/
theorem C8_raising_comparisons_are_nonmatches_witness :
    (queryTokens [("n", [(pyInt 1, pyStr "s"), (pyInt 2, pyInt 3), (pyInt 4, pyInt 9)])]
        ["read", "value", "<", "int", "(", "5", ")", "from", "n"]).1.success = true ∧
    (queryTokens [("n", [(pyInt 1, pyStr "s"), (pyInt 2, pyInt 3), (pyInt 4, pyInt 9)])]
        ["read", "value", "<", "int", "(", "5", ")", "from", "n"]).1.data
      = .entries [(pyInt 2, pyInt 3)] := by
  have h := C8_raising_comparisons_are_nonmatches
    [("n", [(pyInt 1, pyStr "s"), (pyInt 2, pyInt 3), (pyInt 4, pyInt 9)])]
    ["read", "value", "<", "int", "(", "5", ")", "from", "n"]
    "read" "value" "<" (pyInt 5) "n"
    [(pyInt 1, pyStr "s"), (pyInt 2, pyInt 3), (pyInt 4, pyInt 9)]
    (by decide) (Or.inl rfl) (Or.inr rfl) (by intro h; exact absurd h (by decide))
    (by decide)
  refine ⟨h.1, ?_⟩
  rw [h.2.1]
  decide

/-- C6: joining two present collections returns, unchanged store aside,
the grouping of values by key: a key in both collections maps to the
two-element list with collection1's value first, and a key in exactly one
collection still appears, with that single value. -/
theorem C6_join_full_outer_union (st : Store) (cA cB : String) (dA dB : Dict)
    (haA : isAlphaTok cA = true) (haB : isAlphaTok cB = true)
    (hA : storeFind? st cA = some dA) (hB : storeFind? st cB = some dB)
    (hnA : DictNodup dA) (hnB : DictNodup dB) :
    queryTokens st ["join", cA, "with", cB]
      = (⟨true, none, .pair cA cB, .joined (joinCollections dA dB)⟩, st) ∧
    (∀ k vA vB, dictFind? dA k = some vA → dictFind? dB k = some vB →
      joinFind? (joinCollections dA dB) k = some [vA, vB]) ∧
    (∀ k vA, dictFind? dA k = some vA → dictFind? dB k = none →
      joinFind? (joinCollections dA dB) k = some [vA]) ∧
    (∀ k vB, dictFind? dA k = none → dictFind? dB k = some vB →
      joinFind? (joinCollections dA dB) k = some [vB]) := by
  have hexA : collectionExists st cA = true := by simp [collectionExists, hA]
  have hexB : collectionExists st cB = true := by simp [collectionExists, hB]
  have hparse : parseQueryString ["join", cA, "with", cB] = some (.join cA cB) := by
    simp [parseQueryString, parseJoinTokens, haA, haB]
  have hlook : ∀ k : PyVal, joinFind? (joinCollections dA dB) k
      = if (dictFind? dA k).toList ++ (dictFind? dB k).toList = [] then none
        else some ((dictFind? dA k).toList ++ (dictFind? dB k).toList) := by
    intro k
    rw [joinFind?_joinCollections, valuesOf_of_nodup dA k hnA, valuesOf_of_nodup dB k hnB]
  refine ⟨?_, ?_, ?_, ?_⟩
  · unfold queryTokens
    rw [hparse]
    simp [queryCollection1, hexA, hexB, hA, hB]
  · intro k vA vB h1 h2
    rw [hlook k, h1, h2]
    simp
  · intro k vA h1 h2
    rw [hlook k, h1, h2]
    simp
  · intro k vB h1 h2
    rw [hlook k, h1, h2]
    simp

/-- C6 witness: a concrete join of {1: "x", 2: "y"} with {2: "z", 3: "w"}
exercising all three key cases. -/
theorem C6_join_full_outer_union_witness :
    queryTokens [("a", [(pyInt 1, pyStr "x"), (pyInt 2, pyStr "y")]),
                 ("b", [(pyInt 2, pyStr "z"), (pyInt 3, pyStr "w")])]
        ["join", "a", "with", "b"]
      = (⟨true, none, .pair "a" "b",
          .joined (joinCollections [(pyInt 1, pyStr "x"), (pyInt 2, pyStr "y")]
                                   [(pyInt 2, pyStr "z"), (pyInt 3, pyStr "w")])⟩,
         [("a", [(pyInt 1, pyStr "x"), (pyInt 2, pyStr "y")]),
          ("b", [(pyInt 2, pyStr "z"), (pyInt 3, pyStr "w")])]) ∧
    joinFind? (joinCollections [(pyInt 1, pyStr "x"), (pyInt 2, pyStr "y")]
                               [(pyInt 2, pyStr "z"), (pyInt 3, pyStr "w")])
        (pyInt 2) = some [pyStr "y", pyStr "z"] := by
  have h := C6_join_full_outer_union
    [("a", [(pyInt 1, pyStr "x"), (pyInt 2, pyStr "y")]),
     ("b", [(pyInt 2, pyStr "z"), (pyInt 3, pyStr "w")])]
    "a" "b" [(pyInt 1, pyStr "x"), (pyInt 2, pyStr "y")]
    [(pyInt 2, pyStr "z"), (pyInt 3, pyStr "w")]
    (by decide) (by decide) (by decide) (by decide)
    (by simp [DictNodup]; decide) (by simp [DictNodup]; decide)
  exact ⟨h.1, h.2.1 (pyInt 2) (pyStr "y") (pyStr "z") (by decide) (by decide)⟩

theorem queryTokens_failure_store (st : Store) (ts : List String)
    (h : (queryTokens st ts).1.success = false) : (queryTokens st ts).2 = st := by
  unfold queryTokens at h ⊢
  cases hp : parseQueryString ts with
  | none => simp
  | some p =>
    rw [hp] at h
    by_cases hex : collectionExists st (queryCollection1 p) = true
    · simp only [hex, not_true, if_false] at h ⊢
      cases p with
      | join c1 c2 =>
        by_cases hex2 : collectionExists st c2 = true
        · simp [hex2] at h
        · simp [hex2]
      | q a e op x c1 =>
        by_cases ha : a = "read" ∨ a = "delete"
        · simp only [ha, not_true, if_false] at h ⊢
          by_cases he : e = "key"
          · simp [he, execByKey_store]
          · by_cases he2 : e = "value"
            · simp [he, he2] at h
            · simp [he, he2]
        · simp [ha]
    · simp [hex]

/-- C10: at the request boundary, any operation that answers a failure
response (`success = false`) leaves the database — every collection and
every entry — exactly as it was. -/
theorem C10_failure_leaves_store_unchanged (op : StoreOp) (st : Store)
    (h : (runOp op st).1.success = false) : (runOp op st).2 = st := by
  cases op with
  | create name =>
    simp only [runOp, createCollection] at h ⊢
    split_ifs at h ⊢ <;> simp_all
  | drop name =>
    simp only [runOp, deleteCollection] at h ⊢
    split_ifs at h ⊢
    all_goals simp_all
  | readE k name =>
    simp only [runOp, readEntry] at h ⊢
    cases hf : storeFind? st name with
    | none => simp [hf]
    | some d => cases hg : dictFind? d k <;> simp [hf, hg]
  | addE k v name =>
    simp only [runOp, addEntry] at h ⊢
    cases hf : storeFind? st name with
    | none => simp [hf]
    | some d =>
      rw [hf] at h
      cases hg : dictFind? (dictSet d k v) k with
      | none => simp [hg]
      | some v2 => simp [hg] at h
  | delE k name =>
    simp only [runOp, deleteEntry] at h ⊢
    cases hf : storeFind? st name with
    | none => simp [hf]
    | some d =>
      rw [hf] at h
      by_cases hm : dictMem d k = true
      · simp [hm] at h
      · simp [hm]
  | runQuery ts => exact queryTokens_failure_store st ts h

/-- C10 witness: creating an invalidly named collection fails and leaves
the store as it was. -/
theorem C10_failure_leaves_store_unchanged_witness :
    (runOp (.create "bad1") [("a", [])]).1.success = false ∧
    (runOp (.create "bad1") [("a", [])]).2 = [("a", [])] :=
  ⟨by decide, C10_failure_leaves_store_unchanged (.create "bad1") [("a", [])] (by decide)⟩

/-! ## Grammar acceptance versus the specified sentence shapes -/

theorem parseJoinTokens_isSome_iff (ts : List String) :
    (parseJoinTokens ts).isSome = true ↔ SpecJoinForm ts := by
  constructor
  · intro h
    rcases ts with _ | ⟨t0, _ | ⟨c1, _ | ⟨t2, _ | ⟨c2, rest⟩⟩⟩⟩
    · simp [parseJoinTokens] at h
    · simp [parseJoinTokens] at h
    · simp [parseJoinTokens] at h
    · simp [parseJoinTokens] at h
    · by_cases hc : t0 = "join" ∧ isAlphaTok c1 = true ∧ t2 = "with" ∧ isAlphaTok c2 = true
      · exact ⟨c1, c2, rest, by rw [hc.1, hc.2.2.1]; rfl, hc.2.1, hc.2.2.2⟩
      · rw [parseJoinTokens, if_neg hc] at h
        simp at h
  · rintro ⟨c1, c2, rest, rfl, h1, h2⟩
    simp [parseJoinTokens, h1, h2]

theorem parseValueSpec_bare (v t1 : String) (rest : List String) (h : ¬ t1 = "(") :
    parseValueSpec (v :: t1 :: rest) = some (.pyStr v, t1 :: rest) := by
  rcases rest with _ | ⟨r2, _ | ⟨r3, rtail⟩⟩ <;>
    simp [parseValueSpec, parseBareValue, h]

theorem parseValueSpec_typed (ty v : String) (rest : List String) (pv : PyVal)
    (h : parseValueToType v ty = some pv) :
    parseValueSpec (ty :: "(" :: v :: ")" :: rest) = some (pv, rest) := by
  simp [parseValueSpec, h]

theorem parseValueSpec_some_inv (l : List String) (pv : PyVal) (rem : List String)
    (h : parseValueSpec l = some (pv, rem)) :
    (∃ v, l = v :: rem ∧ pv = .pyStr v) ∨
    (∃ ty v, l = [ty, "(", v, ")"] ++ rem ∧ parseValueToType v ty = some pv) := by
  rcases l with _ | ⟨t0, _ | ⟨t1, _ | ⟨t2, _ | ⟨t3, rest⟩⟩⟩⟩
  · simp [parseValueSpec, parseBareValue] at h
  · left
    simp [parseValueSpec, parseBareValue] at h
    exact ⟨t0, by rw [h.2], h.1.symm⟩
  · left
    simp [parseValueSpec, parseBareValue] at h
    exact ⟨t0, by rw [h.2], h.1.symm⟩
  · left
    simp [parseValueSpec, parseBareValue] at h
    exact ⟨t0, by rw [h.2], h.1.symm⟩
  · by_cases hc : t1 = "(" ∧ t3 = ")"
    · right
      rw [parseValueSpec, if_pos hc] at h
      rw [Option.map_eq_some'] at h
      obtain ⟨pv2, hpv, heq⟩ := h
      have h1 : pv2 = pv := congrArg Prod.fst heq
      have h2 : rest = rem := congrArg Prod.snd heq
      subst h1
      subst h2
      exact ⟨t0, t2, by rw [hc.1, hc.2]; rfl, hpv⟩
    · left
      rw [parseValueSpec, if_neg hc] at h
      simp only [parseBareValue, Option.some_inj] at h
      have h1 : PyVal.pyStr t0 = pv := congrArg Prod.fst h
      have h2 : t1 :: t2 :: t3 :: rest = rem := congrArg Prod.snd h
      exact ⟨t0, by rw [h2], h1.symm⟩

theorem parseQueryForm_isSome_iff (ts : List String) :
    (parseQueryForm ts).isSome = true ↔ SpecQueryForm ts := by
  constructor
  · intro h
    rcases ts with _ | ⟨a, _ | ⟨e, _ | ⟨op, rest⟩⟩⟩
    · simp [parseQueryForm] at h
    · simp [parseQueryForm] at h
    · simp [parseQueryForm] at h
    · by_cases hcond : isActionTok a = true ∧ isElementTok e = true ∧ isOperatorTok op = true
      · have hmem1 : a = "read" ∨ a = "delete" := by
          have := hcond.1
          simp [isActionTok] at this
          exact this
        have hmem2 : e = "key" ∨ e = "value" := by
          have := hcond.2.1
          simp [isElementTok] at this
          exact this
        have hmem3 : op = "<" ∨ op = ">" ∨ op = "=" ∨ op = "<=" ∨ op = ">=" ∨
            op = "contains" := by
          have := hcond.2.2
          simp [isOperatorTok] at this
          tauto
        rw [parseQueryForm, if_pos hcond] at h
        cases hv : parseValueSpec rest with
        | none => rw [hv] at h; simp at h
        | some pr =>
          obtain ⟨pv, rem⟩ := pr
          rw [hv] at h
          rcases rem with _ | ⟨t4, _ | ⟨c1, rem2⟩⟩
          · simp at h
          · simp at h
          · by_cases hfc : t4 = "from" ∧ isAlphaTok c1 = true
            · rcases parseValueSpec_some_inv rest pv (t4 :: c1 :: rem2) hv with
                ⟨v, hrest, _⟩ | ⟨ty, v, hrest, hcast⟩
              · exact ⟨a, e, op, [v], c1, rem2, by rw [hrest, hfc.1]; rfl,
                  hmem1, hmem2, hmem3, Or.inl ⟨v, rfl⟩, hfc.2⟩
              · exact ⟨a, e, op, [ty, "(", v, ")"], c1, rem2, by rw [hrest, hfc.1]; rfl,
                  hmem1, hmem2, hmem3, Or.inr ⟨ty, v, rfl, by rw [hcast]; rfl⟩, hfc.2⟩
            · simp [hfc] at h
      · rw [parseQueryForm, if_neg hcond] at h
        simp at h
  · rintro ⟨a, e, op, vs, c, rest, rfl, ha, he, hop, hvs, hc⟩
    have hact : isActionTok a = true := by
      rcases ha with rfl | rfl <;> rfl
    have helem : isElementTok e = true := by
      rcases he with rfl | rfl <;> rfl
    have hoper : isOperatorTok op = true := by
      rcases hop with rfl | rfl | rfl | rfl | rfl | rfl <;> rfl
    have hshape : ([a, e, op] ++ vs ++ ["from", c] ++ rest)
        = a :: e :: op :: (vs ++ "from" :: c :: rest) := by
      simp
    rw [hshape, parseQueryForm, if_pos ⟨hact, helem, hoper⟩]
    rcases hvs with ⟨l, rfl⟩ | ⟨ty, l, rfl, hcast⟩
    · rw [List.cons_append, List.nil_append,
        parseValueSpec_bare l "from" (c :: rest) (by decide)]
      simp [hc]
    · obtain ⟨pv, hpv⟩ := Option.isSome_iff_exists.mp hcast
      have hsh2 : ([ty, "(", l, ")"] ++ "from" :: c :: rest)
          = ty :: "(" :: l :: ")" :: ("from" :: c :: rest) := by simp
      rw [hsh2, parseValueSpec_typed ty l ("from" :: c :: rest) pv hpv]
      simp [hc]

theorem parseQueryString_isSome_iff (ts : List String) :
    (parseQueryString ts).isSome = true ↔ SpecAccepted ts := by
  cases hj : parseJoinTokens ts with
  | some p =>
    have hs : SpecJoinForm ts := (parseJoinTokens_isSome_iff ts).mp (by rw [hj]; rfl)
    have hps : parseQueryString ts = some p := by
      unfold parseQueryString
      rw [hj]
    rw [hps]
    simp [SpecAccepted, hs]
  | none =>
    have hnj : ¬ SpecJoinForm ts := by
      intro hs
      have h2 := (parseJoinTokens_isSome_iff ts).mpr hs
      rw [hj] at h2
      simp at h2
    have hps : parseQueryString ts = parseQueryForm ts := by
      unfold parseQueryString
      rw [hj]
    rw [hps, parseQueryForm_isSome_iff]
    unfold SpecAccepted
    tauto

/-- C5 as amended: a token list is accepted by the parser exactly when it
*begins with* one of the two grammar sentence shapes — trailing tokens
after a well-formed sentence are ignored rather than rejected, which is
the one divergence from the claim — and every rejected token list makes
the query operation answer the `QuerySyntaxError` failure response
"Invalid query syntax.". -/
theorem C5_acceptance_matches_grammar_forms (ts : List String) (st : Store) :
    ((parseQueryString ts).isSome = true ↔ SpecAccepted ts) ∧
    (parseQueryString ts = none →
      queryTokens st ts = (sendError "Invalid query syntax.", st)) := by
  refine ⟨parseQueryString_isSome_iff ts, fun h => ?_⟩
  unfold queryTokens
  rw [h]

/-- C5 amended-claim witness: a token list that is no sentence shape at
all is rejected with the failure response. -/
theorem C5_acceptance_matches_grammar_forms_witness :
    queryTokens [] ["delete", "oops"] = (sendError "Invalid query syntax.", []) :=
  (C5_acceptance_matches_grammar_forms ["delete", "oops"] []).2 (by decide)

end KVDB
